import Mathlib

/-!
Verification development for the `vector-dbs` FAISS REST wrapper
(`docker/faiss-api/app.py`).  The embedding models the module-level FAISS
index object, the on-disk index file, and the five request handlers
(`init_index`, `add_vectors`, `search_vectors`, `delete_vectors`,
`reset_index`).  Stored float32 values are embedded as exact rationals;
every number occurring in the claims is exactly representable.  The FAISS
library itself is external to the repository, so its operations
(`add`, `add_with_ids`, `search`, `remove_ids`, `train`,
`write_index`/`read_index`) are modelled from the library's documented
behavior, noted on each definition.
-/

set_option linter.unusedVariables false

namespace FaissApi

/- Batteries marks the `Rat` arithmetic operations `@[irreducible]`, which
blocks `decide` from evaluating concrete scenarios; they are perfectly
computable, so make them semireducible for this development. -/
attribute [local semireducible] Rat.add Rat.mul Rat.sub Rat.inv Rat.ofScientific

/-- A stored vector: a finite sequence of coordinates. -/
abbrev Vec := List ℚ

/-- Distance metric of an index.  The service only ever constructs L2
indexes (`IndexFlatL2`, `METRIC_L2`, `IndexHNSWFlat`). -/
inductive Metric
  | l2
  | ip
  deriving DecidableEq

/-- Squared Euclidean distance, the value FAISS reports for L2 indexes. -/
def l2sq : Vec → Vec → ℚ
  | x :: xs, y :: ys => (x - y) * (x - y) + l2sq xs ys
  | _, _ => 0

/-- State of a `faiss.IndexFlatL2`: dimension, metric, and the stored
vectors in insertion order (their ids are the slots 0..n-1). -/
structure FlatState where
  d : Nat
  metric : Metric
  xs : List Vec
  deriving DecidableEq

/-- One stored vector of an `IndexIVFFlat`: the inverted list (cluster) it
was assigned to, its 64-bit id, and its contents. -/
structure IVFEntry where
  cluster : Nat
  id : Int
  vec : Vec
  deriving DecidableEq

/-- State of a `faiss.IndexIVFFlat`: dimension, metric, number of inverted
lists, current `nprobe`, the trained flag, the quantizer centroids, and the
stored entries. -/
structure IVFState where
  d : Nat
  metric : Metric
  nlist : Nat
  nprobe : Int
  trained : Bool
  centroids : List Vec
  entries : List IVFEntry
  deriving DecidableEq

/-- State of a `faiss.IndexHNSWFlat`: dimension, metric, the `M` link
parameter, stored vectors, and the adjacency lists of the proximity graph. -/
structure HNSWState where
  d : Nat
  metric : Metric
  m : Nat
  xs : List Vec
  neighbors : List (List Nat)
  deriving DecidableEq

/-- The module-level `index` object of `app.py`: one of the three index
classes the service constructs. -/
inductive IndexState
  | flat : FlatState → IndexState
  | ivf : IVFState → IndexState
  | hnsw : HNSWState → IndexState
  deriving DecidableEq

/-- FAISS `index.ntotal`: number of stored vectors. -/
def ntotalOf : IndexState → Nat
  | .flat s => s.xs.length
  | .ivf s => s.entries.length
  | .hnsw s => s.xs.length

/-- FAISS `index.is_trained`: flat and HNSW indexes are always trained. -/
def trainedOf : IndexState → Bool
  | .flat _ => true
  | .ivf s => s.trained
  | .hnsw _ => true

/-- The `isinstance(index, faiss.IndexIVF)` check of `app.py`. -/
def isIVF : IndexState → Bool
  | .ivf _ => true
  | _ => false

/-- The stored vector contents, in storage order. -/
def liveVectors : IndexState → List Vec
  | .flat s => s.xs
  | .ivf s => s.entries.map IVFEntry.vec
  | .hnsw s => s.xs

/-- Reading `index.nprobe` (only meaningful on IVF indexes). -/
def getNprobe : IndexState → Int
  | .ivf s => s.nprobe
  | _ => 0

/-- Writing `index.nprobe` (a no-op for non-IVF states, which the handlers
never do anyway). -/
def setNprobe : IndexState → Int → IndexState
  | .ivf s, m => .ivf { s with nprobe := m }
  | st, _ => st

/-! ### Top-k selection

FAISS search returns, per query, the `k` nearest stored vectors in
ascending distance, ties broken by lower id, the list padded with label
`-1` when fewer than `k` results exist. -/

/-- Sentinel distance FAISS pads missing results with: the value of
`FLT_MAX`, exactly 2^128 - 2^104. -/
def padDist : ℚ := 340282346638528859811704183484516925440

/-- Stable insertion of a labelled distance into a distance-sorted list:
the new element goes after all already-present elements of equal distance. -/
def insertByDist (p : Int × ℚ) : List (Int × ℚ) → List (Int × ℚ)
  | [] => [p]
  | q :: qs => if q.2 ≤ p.2 then q :: insertByDist p qs else p :: q :: qs

/-- Stable insertion sort by ascending distance. -/
def sortByDist : List (Int × ℚ) → List (Int × ℚ)
  | [] => []
  | p :: ps => insertByDist p (sortByDist ps)

/-- Labelled distances of a query to every vector of a flat store; labels
are the storage slots, which are also the reported ids. -/
def searchCandidates (q : Vec) (xs : List Vec) : List (Int × ℚ) :=
  (List.range xs.length).map (fun (i : Nat) => ((i : Int), l2sq (xs.getD i []) q))

/-- Top-k rows from a candidate set: sort ascending by distance (stable, so
ties break by insertion order, i.e. lower slot), truncate to `k`, pad with
the `-1` sentinel to exactly `k` entries. -/
def topK (cands : List (Int × ℚ)) (k : Nat) : List (Int × ℚ) :=
  let res := (sortByDist cands).take k
  res ++ List.replicate (k - res.length) ((-1 : Int), padDist)

/-- Exact brute-force search of `IndexFlatL2` (also used by the quantizer). -/
def flatTopK (xs : List Vec) (q : Vec) (k : Nat) : List (Int × ℚ) :=
  topK (searchCandidates q xs) k

/-! ### Quantizer / training model

FAISS trains an IVF index by k-means over the supplied training vectors.
The app only ever observes the trained flag and vector counts, never
centroid coordinates; the clustering itself is modelled as a deterministic
Lloyd iteration (seeded with the first `nlist` training points, fixed
iteration count 25 as in `faiss.Clustering`). -/

/-- Componentwise sum of vectors. -/
def vecSum : List Vec → Vec
  | [] => []
  | [v] => v
  | v :: vs => (v.zip (vecSum vs)).map (fun p => p.1 + p.2)

/-- Mean of a nonempty list of vectors (empty list: the zero-length vector). -/
def vecMean (vs : List Vec) : Vec :=
  (vecSum vs).map (fun x => x / (vs.length : ℚ))

/-- Index of the nearest centroid (ties to the lower index), 0 if none. -/
def nearestCentroid (cs : List Vec) (v : Vec) : Nat :=
  match sortByDist ((List.range cs.length).map
      (fun (i : Nat) => ((i : Int), l2sq (cs.getD i []) v))) with
  | [] => 0
  | p :: _ => p.1.toNat

/-- One Lloyd step: reassign every training point to its nearest centroid
and replace each centroid by the mean of its members (kept unchanged when
its cluster is empty). -/
def lloydStep (vs : List Vec) (cs : List Vec) : List Vec :=
  (List.range cs.length).map (fun j =>
    let members := vs.filter (fun v => nearestCentroid cs v = j)
    if members.isEmpty then cs.getD j [] else vecMean members)

/-- Plain iteration helper. -/
def iterN (f : α → α) : Nat → α → α
  | 0, a => a
  | n + 1, a => iterN f n (f a)

/-- Deterministic model of the k-means clustering FAISS runs in
`index.train`: seed with the first `nlist` training vectors, 25 Lloyd
iterations. -/
def kmeansCentroids (nlist : Nat) (vs : List Vec) : List Vec :=
  iterN (lloydStep vs) 25 (vs.take nlist)

/-! ### FAISS operations invoked by the handlers -/

/-- Exceptions raised inside the handlers' `try` blocks; `app.py` catches
every one of them and answers with a generic 500 response carrying the
exception text. -/
inductive FErr
  | notTrained
  | addWithIdsUnsupported
  | kNotPositive
  | nprobeNotPositive
  | badArray
  | nprobeOverflow
  deriving DecidableEq

/-- FAISS `index.train(vectors)` as called by the handler's auto-train
block (only ever on an untrained IVF index with at least `nlist` training
vectors): fits the quantizer centroids and sets the trained flag. -/
def faissTrain (st : IndexState) (vs : List Vec) : IndexState :=
  match st with
  | .ivf s => .ivf { s with trained := true, centroids := kmeansCentroids s.nlist vs }
  | st => st

/-- FAISS `index.add(vectors)`: appends with sequential ids.  On an IVF
index, `add_core` asserts `is_trained`, so adding to an untrained IVF index
raises; when trained, each vector goes to the inverted list of its nearest
centroid with id `ntotal + position`.  The HNSW linkage is modelled by
connecting each new node to its `M` nearest predecessors (spec §4.5
explicitly allows a scoped-down graph scheme). -/
def faissAdd (st : IndexState) (vs : List Vec) : Except FErr IndexState :=
  match st with
  | .flat s => .ok (.flat { s with xs := s.xs ++ vs })
  | .hnsw s =>
      .ok (.hnsw { s with
        xs := s.xs ++ vs,
        neighbors := s.neighbors ++
          (List.range vs.length).map (fun i =>
            ((flatTopK (s.xs ++ vs.take i) (vs.getD i []) s.m).map
              (fun p => p.1.toNat))) })
  | .ivf s =>
      if s.trained then
        .ok (.ivf { s with entries := s.entries ++
          (List.range vs.length).map (fun i =>
            ⟨nearestCentroid s.centroids (vs.getD i []),
             (s.entries.length + i : Int), vs.getD i []⟩) })
      else .error .notTrained

/-- FAISS `index.add_with_ids(vectors, ids)`: `IndexFlatL2` and
`IndexHNSWFlat` have no id map and raise `add_with_ids not implemented for
this type of index`; `IndexIVFFlat` supports it but, like `add`, asserts
`is_trained`. -/
def faissAddWithIds (st : IndexState) (vs : List Vec) (ids : List Int) :
    Except FErr IndexState :=
  match st with
  | .flat _ => .error .addWithIdsUnsupported
  | .hnsw _ => .error .addWithIdsUnsupported
  | .ivf s =>
      if s.trained then
        .ok (.ivf { s with entries := s.entries ++
          (List.zipWith (fun id v => ⟨nearestCentroid s.centroids v, id, v⟩)
            ids vs) })
      else .error .notTrained

/-- FAISS `index.remove_ids(ids)` on an IVF index: drops every entry whose
id is listed (the handler only reaches this call on IVF states). -/
def faissRemoveIds (st : IndexState) (ids : List Int) : IndexState :=
  match st with
  | .ivf s => .ivf { s with entries := s.entries.filter (fun e => !(ids.contains e.id)) }
  | st => st

/-- Search of an IVF index: rank the centroids against the query, probe the
`nprobe` nearest inverted lists, and take the global top-k of their
members.  An untrained index has no centroids, so no list is probed and
every result row is `-1` padding — FAISS performs no `is_trained` check in
`IndexIVF::search`, it only asserts `k > 0` and `nprobe > 0`. -/
def ivfTopK (s : IVFState) (q : Vec) (nprobe : Nat) (k : Nat) : List (Int × ℚ) :=
  let probed := ((sortByDist ((List.range s.centroids.length).map
      (fun (i : Nat) => ((i : Int), l2sq (s.centroids.getD i []) q)))).take nprobe).map
      (fun p => p.1.toNat)
  topK ((s.entries.filter (fun e => probed.contains e.cluster)).map
    (fun e => (e.id, l2sq e.vec q))) k

/-- FAISS `index.search(queries, k)`: asserts `k > 0`; for IVF also asserts
an effective `nprobe > 0` (`min nlist nprobe`); otherwise returns one
padded top-k row per query.  HNSW search is modelled by the same exact scan
(spec §4.5 allows the scoped-down scheme; no claim inspects HNSW results). -/
def faissSearch (st : IndexState) (qs : List Vec) (k : Int) :
    Except FErr (List (List (Int × ℚ))) :=
  if k ≤ 0 then .error .kNotPositive
  else
    match st with
    | .flat s => .ok (qs.map (fun q => flatTopK s.xs q k.toNat))
    | .hnsw s => .ok (qs.map (fun q => flatTopK s.xs q k.toNat))
    | .ivf s =>
        let np := min (s.nlist : Int) s.nprobe
        if np ≤ 0 then .error .nprobeNotPositive
        else .ok (qs.map (fun q => ivfTopK s q np.toNat k.toNat))

/-! ### Persistence

The handlers persist with `faiss.write_index(index, INDEX_PATH)`: the
target file is opened for writing (truncating it) and the encoded state is
streamed into it directly — there is no temporary file and no atomic
replace.  `persistStep old new crash` is the file content afterwards:
the full new encoding when the write completes (`crash = none`), a bare
prefix of it when the write is interrupted after `i` tokens. -/
def persistStep (old new : List Int) (crash : Option Nat) : List Int :=
  match crash with
  | none => new
  | some i => new.take i

/-- Column count of `np.array(rows, dtype=np.float32)` as used by the
handlers: a nonempty rectangular nesting has `shape[1]` = the common row
length; an empty list has 1-dimensional shape (so `shape[1]` raises) and a
ragged nesting makes `np.array` itself raise — both surface as the generic
500 handler. -/
def npShapeCols : List Vec → Option Nat
  | [] => none
  | v :: vs => if vs.all (fun w => w.length = v.length) then some v.length else none

/-! ### Request/response model of the five endpoints -/

/-- Distinguishable error responses of the handlers: the dedicated 400
rejections of `add_vectors`/`delete_vectors`, and the catch-all 500 that
wraps any exception text. -/
inductive ApiError
  | dimensionMismatch (expected got : Nat)
  | idCountMismatch (nids nvecs : Nat)
  | deleteUnsupported
  | libraryError (e : FErr)
  deriving DecidableEq

/-- Typed outcome of a handler: `ok` with the endpoint's payload, or `err`
with the HTTP status code and the cause. -/
inductive Resp (α : Type)
  | ok : α → Resp α
  | err : Nat → ApiError → Resp α
  deriving DecidableEq

/-- Body of `/add`'s JSON request. -/
structure AddReq where
  vectors : List Vec
  ids : Option (List Int)
  deriving DecidableEq

/-- Success payload of `/add`. -/
structure AddOk where
  vectorsAdded : Nat
  totalVectors : Nat
  deriving DecidableEq

/-- Body of `/search`'s JSON request (`k` defaults to 5 at decode time). -/
structure SearchReq where
  queryVectors : List Vec
  k : Int
  nprobe : Option Int
  deriving DecidableEq

/-- Body of `/delete`'s JSON request. -/
structure DeleteReq where
  ids : List Int
  deriving DecidableEq

/-- Success payload of `/delete` (`vectors_deleted` is `len(ids)`). -/
structure DeleteOk where
  vectorsDeleted : Nat
  totalVectors : Nat
  deriving DecidableEq

/-- Service configuration read from the environment. -/
structure Config where
  dimension : Nat
  indexType : String
  nlist : Nat
  nprobe : Int
  deriving DecidableEq

/-- Whether a response is a success response. -/
def respIsOk : Resp α → Bool
  | .ok _ => true
  | .err _ _ => false

/-! ### The handlers of `app.py`

Each handler is a function of the configuration, the module-level index
object and the current content of the index file, returning the response
together with the index object and file afterwards.  Authentication is the
out-of-scope transport concern (`API_TOKEN` defaults to unset, so
`authenticate()` returns `True`). -/

/-- The index construction switch shared by `init_index`'s create branch
(lines 80-94): `Flat` and unknown types give `IndexFlatL2(DIMENSION)`,
`IVF` gives an untrained `IndexIVFFlat` (whose constructor leaves the FAISS
default `nprobe = 1`), `HNSW` gives `IndexHNSWFlat(DIMENSION, 32)`. -/
def newIndex (cfg : Config) : IndexState :=
  if cfg.indexType = "Flat" then .flat ⟨cfg.dimension, .l2, []⟩
  else if cfg.indexType = "IVF" then
    .ivf ⟨cfg.dimension, .l2, cfg.nlist, 1, false, [], []⟩
  else if cfg.indexType = "HNSW" then .hnsw ⟨cfg.dimension, .l2, 32, [], []⟩
  else .flat ⟨cfg.dimension, .l2, []⟩

/-! ### Serialization codec

`faiss.write_index` / `faiss.read_index` serialize the full index state to
the file and back.  The library is external to the repository; the codec is
modelled from spec §4.6 (`encode(IndexState) -> bytes`,
`decode(bytes) -> IndexState`, failing on malformed input) as a token
stream of 64-bit integers: a genuine length-prefixed flat encoding with a
strict parser, not an identity pair. -/

/-- Encode a natural number as one token. -/
def encNat (n : Nat) : List Int := [(n : Int)]

/-- Parse a natural number token; negative tokens are malformed. -/
def decNat : List Int → Option (Nat × List Int)
  | [] => none
  | x :: rest => if x < 0 then none else some (x.toNat, rest)

/-- Encode a rational as numerator and (positive) denominator tokens. -/
def encQ (q : ℚ) : List Int := [q.num, (q.den : Int)]

/-- Parse a rational; a non-positive denominator is malformed. -/
def decQ : List Int → Option (ℚ × List Int)
  | n :: d :: rest => if d ≤ 0 then none else some ((n : ℚ) / (d : ℚ), rest)
  | _ => none

/-- Encode a boolean as one token. -/
def encBool (b : Bool) : List Int := [if b then 1 else 0]

/-- Parse a boolean token. -/
def decBool : List Int → Option (Bool × List Int)
  | 0 :: rest => some (false, rest)
  | 1 :: rest => some (true, rest)
  | _ => none

/-- Encode a metric tag as one token. -/
def encMetric : Metric → List Int
  | .l2 => [0]
  | .ip => [1]

/-- Parse a metric tag. -/
def decMetric : List Int → Option (Metric × List Int)
  | 0 :: rest => some (.l2, rest)
  | 1 :: rest => some (.ip, rest)
  | _ => none

/-- Concatenated encodings of the elements of a list. -/
def encListBody (enc1 : α → List Int) : List α → List Int
  | [] => []
  | x :: xs => enc1 x ++ encListBody enc1 xs

/-- Length-prefixed encoding of a list. -/
def encList (enc1 : α → List Int) (xs : List α) : List Int :=
  encNat xs.length ++ encListBody enc1 xs

/-- Parse exactly `n` consecutive elements. -/
def decListN (dec1 : List Int → Option (α × List Int)) :
    Nat → List Int → Option (List α × List Int)
  | 0, s => some ([], s)
  | n + 1, s =>
      match dec1 s with
      | none => none
      | some (x, s1) =>
          match decListN dec1 n s1 with
          | none => none
          | some (xs, s2) => some (x :: xs, s2)

/-- Parse a length-prefixed list. -/
def decList (dec1 : List Int → Option (α × List Int)) (s : List Int) :
    Option (List α × List Int) :=
  match decNat s with
  | none => none
  | some (n, s1) => decListN dec1 n s1

/-- Encoding of a vector. -/
def encVec (v : Vec) : List Int := encList encQ v

/-- Parser of a vector. -/
def decVec (s : List Int) : Option (Vec × List Int) := decList decQ s

/-- Encoding of one IVF entry. -/
def encEntry (e : IVFEntry) : List Int :=
  encNat e.cluster ++ [e.id] ++ encVec e.vec

/-- Parser of one IVF entry. -/
def decEntry (s : List Int) : Option (IVFEntry × List Int) :=
  match decNat s with
  | none => none
  | some (c, s1) =>
      match s1 with
      | [] => none
      | id :: s2 =>
          match decVec s2 with
          | none => none
          | some (v, s3) => some (⟨c, id, v⟩, s3)

/-- Encoding of one adjacency list of the HNSW graph. -/
def encAdj (ns : List Nat) : List Int := encList encNat ns

/-- Parser of one adjacency list. -/
def decAdj (s : List Int) : Option (List Nat × List Int) := decList decNat s

/-- Full state encoding: a kind tag followed by the kind's fields. -/
def encState : IndexState → List Int
  | .flat s => 0 :: (encNat s.d ++ encMetric s.metric ++ encList encVec s.xs)
  | .ivf s =>
      1 :: (encNat s.d ++ encMetric s.metric ++ encNat s.nlist ++ [s.nprobe] ++
        encBool s.trained ++ encList encVec s.centroids ++ encList encEntry s.entries)
  | .hnsw s =>
      2 :: (encNat s.d ++ encMetric s.metric ++ encNat s.m ++
        encList encVec s.xs ++ encList encAdj s.neighbors)

/-- Parser of a full state with leftover stream. -/
def decStateAux : List Int → Option (IndexState × List Int)
  | 0 :: s =>
      (match decNat s with
       | none => none
       | some (d, s1) =>
           match decMetric s1 with
           | none => none
           | some (m, s2) =>
               match decList decVec s2 with
               | none => none
               | some (xs, s3) => some (.flat ⟨d, m, xs⟩, s3))
  | 1 :: s =>
      (match decNat s with
       | none => none
       | some (d, s1) =>
           match decMetric s1 with
           | none => none
           | some (m, s2) =>
               match decNat s2 with
               | none => none
               | some (nl, s3) =>
                   match s3 with
                   | [] => none
                   | np :: s4 =>
                       match decBool s4 with
                       | none => none
                       | some (tr, s5) =>
                           match decList decVec s5 with
                           | none => none
                           | some (cs, s6) =>
                               match decList decEntry s6 with
                               | none => none
                               | some (es, s7) =>
                                   some (.ivf ⟨d, m, nl, np, tr, cs, es⟩, s7))
  | 2 :: s =>
      (match decNat s with
       | none => none
       | some (d, s1) =>
           match decMetric s1 with
           | none => none
           | some (m, s2) =>
               match decNat s2 with
               | none => none
               | some (mm, s3) =>
                   match decList decVec s3 with
                   | none => none
                   | some (xs, s4) =>
                       match decList decAdj s4 with
                       | none => none
                       | some (ns, s5) => some (.hnsw ⟨d, m, mm, xs, ns⟩, s5))
  | _ => none

/-- `faiss.read_index`: decode the whole file, rejecting trailing garbage. -/
def decState (s : List Int) : Option IndexState :=
  match decStateAux s with
  | some (st, []) => some st
  | _ => none

/-- POST `/add` (`add_vectors`, lines 167-235): convert the payload to a
float32 matrix, reject a wrong column count with a 400, auto-train an
untrained IVF index when the batch reaches `NLIST`, then add (with client
ids when supplied, after checking their count), and persist the index
file.  Any exception raised along the way becomes a 500 response with the
state as mutated so far and the file untouched. -/
def add_vectors (cfg : Config) (st : IndexState) (disk : List Int)
    (req : AddReq) : Resp AddOk × IndexState × List Int :=
  match npShapeCols req.vectors with
  | none => (.err 500 (.libraryError .badArray), st, disk)
  | some cols =>
    if cols ≠ cfg.dimension then
      (.err 400 (.dimensionMismatch cfg.dimension cols), st, disk)
    else
      let n := req.vectors.length
      let st1 :=
        if isIVF st = true ∧ trainedOf st = false ∧ cfg.nlist ≤ n then
          faissTrain st req.vectors
        else st
      match req.ids with
      | some ids =>
          if ids.length ≠ n then
            (.err 400 (.idCountMismatch ids.length n), st1, disk)
          else
            match faissAddWithIds st1 req.vectors ids with
            | .error e => (.err 500 (.libraryError e), st1, disk)
            | .ok st2 =>
                (.ok ⟨n, ntotalOf st2⟩, st2, persistStep disk (encState st2) none)
      | none =>
          match faissAdd st1 req.vectors with
          | .error e => (.err 500 (.libraryError e), st1, disk)
          | .ok st2 =>
              (.ok ⟨n, ntotalOf st2⟩, st2, persistStep disk (encState st2) none)

/-- POST `/search` (`search_vectors`, lines 238-290): validate the query
matrix, apply a request-scoped `nprobe` override when the payload carries a
truthy `nprobe` and the index is IVF (a negative value makes the SWIG
`size_t` assignment itself raise), run the search, and restore the saved
`nprobe` — but only on the success path: an exception inside
`index.search` jumps straight to the 500 handler, skipping the restore.
Search never writes the index file. -/
def search_vectors (cfg : Config) (st : IndexState) (disk : List Int)
    (req : SearchReq) : Resp (List (List (Int × ℚ))) × IndexState × List Int :=
  match npShapeCols req.queryVectors with
  | none => (.err 500 (.libraryError .badArray), st, disk)
  | some cols =>
    if cols ≠ cfg.dimension then
      (.err 400 (.dimensionMismatch cfg.dimension cols), st, disk)
    else
      match req.nprobe with
      | some m =>
          if m ≠ 0 ∧ isIVF st = true then
            if m < 0 then (.err 500 (.libraryError .nprobeOverflow), st, disk)
            else
              let st1 := setNprobe st m
              match faissSearch st1 req.queryVectors req.k with
              | .error e => (.err 500 (.libraryError e), st1, disk)
              | .ok res => (.ok res, setNprobe st1 (getNprobe st), disk)
          else
            match faissSearch st req.queryVectors req.k with
            | .error e => (.err 500 (.libraryError e), st, disk)
            | .ok res => (.ok res, st, disk)
      | none =>
          match faissSearch st req.queryVectors req.k with
          | .error e => (.err 500 (.libraryError e), st, disk)
          | .ok res => (.ok res, st, disk)

/-- POST `/delete` (`delete_vectors`, lines 293-329): only `IndexIDMap` and
`IndexIVF` instances pass the support check, and the service never
constructs an `IndexIDMap`, so deletion succeeds exactly on IVF states;
the reported `vectors_deleted` is `len(ids)`, not the number actually
removed, and the updated index is persisted. -/
def delete_vectors (cfg : Config) (st : IndexState) (disk : List Int)
    (req : DeleteReq) : Resp DeleteOk × IndexState × List Int :=
  if isIVF st = false then (.err 400 .deleteUnsupported, st, disk)
  else
    let st1 := faissRemoveIds st req.ids
    (.ok ⟨req.ids.length, ntotalOf st1⟩, st1, persistStep disk (encState st1) none)

/-- POST `/reset` (`reset_index`, lines 332-360): rebuild a fresh index by
the configured type (unknown types again fall back to `IndexFlatL2`),
replace the module-level object and persist the empty index. -/
def reset_index (cfg : Config) (st : IndexState) (disk : List Int) :
    Resp Unit × IndexState × List Int :=
  let st1 :=
    if cfg.indexType = "Flat" then IndexState.flat ⟨cfg.dimension, .l2, []⟩
    else if cfg.indexType = "IVF" then
      .ivf ⟨cfg.dimension, .l2, cfg.nlist, 1, false, [], []⟩
    else if cfg.indexType = "HNSW" then .hnsw ⟨cfg.dimension, .l2, 32, [], []⟩
    else .flat ⟨cfg.dimension, .l2, []⟩
  (.ok (), st1, persistStep disk (encState st1) none)

/-- Startup (`init_index`, lines 46-102): when the index file exists, load
it (a decode failure fails initialization, and the process exits) and
reset `nprobe` to the configured `NPROBE` on IVF indexes; otherwise build a
fresh index per the configured type and persist it immediately. -/
def init_index (cfg : Config) (disk : Option (List Int)) :
    Option (IndexState × List Int) :=
  match disk with
  | some bytes =>
      (match decState bytes with
       | none => none
       | some st =>
           if isIVF st then some (setNprobe st cfg.nprobe, bytes)
           else some (st, bytes))
  | none =>
      let st := newIndex cfg
      some (st, persistStep [] (encState st) none)

/-- GET `/stats` payload (`get_index_stats`, lines 137-150). -/
structure IndexStats where
  index_type : String
  dimension : Nat
  total_vectors : Nat
  is_trained : Bool
  nlistField : Option Nat
  nprobeField : Option Int
  metric_type : String
  deriving DecidableEq

/-- Building the `/stats` payload: `total_vectors` is `index.ntotal`;
`is_trained`, `nlist` and `nprobe` are filled from the index only for IVF
instances. -/
def get_index_stats (cfg : Config) (st : IndexState) : IndexStats :=
  match st with
  | .ivf s =>
      ⟨cfg.indexType, cfg.dimension, ntotalOf st, s.trained, some s.nlist,
        some s.nprobe, "L2"⟩
  | _ => ⟨cfg.indexType, cfg.dimension, ntotalOf st, true, none, none, "L2"⟩

/-! ## Round-trip lemmas for the codec -/

theorem decNat_enc (n : Nat) (rest : List Int) :
    decNat (encNat n ++ rest) = some (n, rest) := by
  simp [encNat, decNat]

theorem decQ_enc (q : ℚ) (rest : List Int) :
    decQ (encQ q ++ rest) = some (q, rest) := by
  have hd : ¬ ((q.den : Int) ≤ 0) := by
    simp only [not_le]
    exact_mod_cast q.den_pos
  simp only [encQ, decQ, List.cons_append, List.nil_append, hd, if_neg,
    if_false, Option.some.injEq, Prod.mk.injEq, and_true]
  push_cast
  exact Rat.num_div_den q

theorem decBool_enc (b : Bool) (rest : List Int) :
    decBool (encBool b ++ rest) = some (b, rest) := by
  cases b <;> rfl

theorem decMetric_enc (m : Metric) (rest : List Int) :
    decMetric (encMetric m ++ rest) = some (m, rest) := by
  cases m <;> rfl

theorem decListN_enc {α : Type} (enc1 : α → List Int)
    (dec1 : List Int → Option (α × List Int))
    (h1 : ∀ x rest, dec1 (enc1 x ++ rest) = some (x, rest)) :
    ∀ (xs : List α) (rest : List Int),
      decListN dec1 xs.length (encListBody enc1 xs ++ rest) = some (xs, rest) := by
  intro xs
  induction xs with
  | nil => intro rest; simp [encListBody, decListN]
  | cons x xs ih =>
      intro rest
      simp only [encListBody, List.length_cons, decListN, List.append_assoc, h1, ih]

theorem decList_enc {α : Type} (enc1 : α → List Int)
    (dec1 : List Int → Option (α × List Int))
    (h1 : ∀ x rest, dec1 (enc1 x ++ rest) = some (x, rest))
    (xs : List α) (rest : List Int) :
    decList dec1 (encList enc1 xs ++ rest) = some (xs, rest) := by
  simp only [encList, decList, List.append_assoc, decNat_enc,
    decListN_enc enc1 dec1 h1 xs rest]

theorem decVec_enc (v : Vec) (rest : List Int) :
    decVec (encVec v ++ rest) = some (v, rest) :=
  decList_enc encQ decQ decQ_enc v rest

theorem decEntry_enc (e : IVFEntry) (rest : List Int) :
    decEntry (encEntry e ++ rest) = some (e, rest) := by
  simp only [encEntry, decEntry, List.append_assoc, decNat_enc,
    List.cons_append, List.nil_append, decVec_enc]

theorem decAdj_enc (ns : List Nat) (rest : List Int) :
    decAdj (encAdj ns ++ rest) = some (ns, rest) :=
  decList_enc encNat decNat decNat_enc ns rest

theorem decStateAux_enc (st : IndexState) (rest : List Int) :
    decStateAux (encState st ++ rest) = some (st, rest) := by
  cases st with
  | flat s =>
      cases s with
      | mk d m xs =>
          simp only [encState, List.cons_append, List.append_assoc, decStateAux,
            decNat_enc, decMetric_enc, decList_enc encVec decVec decVec_enc]
  | ivf s =>
      cases s with
      | mk d m nl np tr cs es =>
          simp only [encState, List.cons_append, List.nil_append,
            List.append_assoc, decStateAux, decNat_enc, decMetric_enc,
            decBool_enc, decList_enc encVec decVec decVec_enc,
            decList_enc encEntry decEntry decEntry_enc]
  | hnsw s =>
      cases s with
      | mk d m mm xs ns =>
          simp only [encState, List.cons_append, List.append_assoc, decStateAux,
            decNat_enc, decMetric_enc, decList_enc encVec decVec decVec_enc,
            decList_enc encAdj decAdj decAdj_enc]

theorem decState_enc (st : IndexState) : decState (encState st) = some st := by
  have h := decStateAux_enc st []
  rw [List.append_nil] at h
  simp [decState, h]

/-! ## Helper lemmas on search -/

theorem l2sq_self (v : Vec) : l2sq v v = 0 := by
  induction v with
  | nil => rfl
  | cons x xs ih => simp [l2sq, ih]

theorem mem_insertByDist (a p : Int × ℚ) (l : List (Int × ℚ)) :
    a ∈ insertByDist p l ↔ a = p ∨ a ∈ l := by
  induction l with
  | nil => simp [insertByDist]
  | cons q qs ih =>
      simp only [insertByDist]
      split
      · simp only [List.mem_cons, ih]
        tauto
      · simp only [List.mem_cons]

theorem mem_sortByDist (a : Int × ℚ) (l : List (Int × ℚ)) :
    a ∈ sortByDist l ↔ a ∈ l := by
  induction l with
  | nil => simp [sortByDist]
  | cons p ps ih => simp [sortByDist, mem_insertByDist, ih]

theorem length_insertByDist (p : Int × ℚ) (l : List (Int × ℚ)) :
    (insertByDist p l).length = l.length + 1 := by
  induction l with
  | nil => rfl
  | cons q qs ih =>
      simp only [insertByDist]
      split
      · simp [ih]
      · simp

theorem length_sortByDist (l : List (Int × ℚ)) :
    (sortByDist l).length = l.length := by
  induction l with
  | nil => rfl
  | cons p ps ih => simp [sortByDist, length_insertByDist, ih]

/-- Every stored vector, queried with its own content against a flat store
with a large enough `k`, appears among the results under its own slot id at
distance 0. -/
theorem flat_self_mem (xs : List Vec) (i k : Nat) (hi : i < xs.length)
    (hk : xs.length ≤ k) :
    ((i : Int), (0 : ℚ)) ∈ flatTopK xs (xs.getD i []) k := by
  have hmem : ((i : Int), (0 : ℚ)) ∈ searchCandidates (xs.getD i []) xs := by
    simp only [searchCandidates, List.mem_map, List.mem_range]
    exact ⟨i, hi, by rw [l2sq_self]⟩
  have hlen : (sortByDist (searchCandidates (xs.getD i []) xs)).length ≤ k := by
    rw [length_sortByDist]
    simpa [searchCandidates] using hk
  apply List.mem_append_left
  rw [List.take_of_length_le hlen]
  exact (mem_sortByDist _ _).mpr hmem

/-- Filtering with the same predicate twice equals filtering once. -/
theorem filter_idem {α : Type} (p : α → Bool) (l : List α) :
    (l.filter p).filter p = l.filter p := by
  induction l with
  | nil => rfl
  | cons x l ih =>
      by_cases hx : p x
      · simp [List.filter, hx, ih]
      · simp [List.filter, hx, ih]

/-- Computation rule: training an IVF index sets the trained flag and the
fitted centroids, touching nothing else. -/
theorem faissTrain_ivf (s : IVFState) (vs : List Vec) :
    faissTrain (.ivf s) vs
      = .ivf ⟨s.d, s.metric, s.nlist, s.nprobe, true,
          kmeansCentroids s.nlist vs, s.entries⟩ := rfl

/-- Computation rule: adding to a trained IVF index appends one entry per
vector, with sequential ids and nearest-centroid assignment. -/
theorem faissAdd_ivf_trained (s : IVFState) (vs : List Vec) (htr : s.trained = true) :
    faissAdd (.ivf s) vs
      = .ok (.ivf ⟨s.d, s.metric, s.nlist, s.nprobe, s.trained, s.centroids,
          s.entries ++ (List.range vs.length).map (fun i =>
            ⟨nearestCentroid s.centroids (vs.getD i []),
             (s.entries.length + i : Int), vs.getD i []⟩)⟩) := by
  simp only [faissAdd, htr]
  rfl

/-- Computation rule: adding to an untrained IVF index raises. -/
theorem faissAdd_ivf_untrained (s : IVFState) (vs : List Vec) (htr : s.trained = false) :
    faissAdd (.ivf s) vs = .error .notTrained := by
  simp only [faissAdd, htr]
  rfl

/-! ## Concrete fixtures used by witnesses and counterexamples -/

/-- Flat service configuration with dimension 4. -/
def cfgFlat4 : Config := ⟨4, "Flat", 100, 10⟩

/-- Flat service configuration with dimension 2. -/
def cfgFlat2 : Config := ⟨2, "Flat", 100, 10⟩

/-- Flat service configuration with dimension 1. -/
def cfgFlat1 : Config := ⟨1, "Flat", 100, 10⟩

/-- IVF service configuration with dimension 2 and `NLIST = 2`. -/
def cfgIVF2 : Config := ⟨2, "IVF", 2, 10⟩

/-- A fresh empty flat index of dimension 4. -/
def emptyFlat4 : IndexState := .flat ⟨4, .l2, []⟩

/-- An untrained empty IVF index of dimension 2, `nlist = 2`, `nprobe = 10`
(the state after a restart loads a fresh IVF index and sets `NPROBE`). -/
def untrainedIVF2 : IVFState := ⟨2, .l2, 2, 10, false, [], []⟩

/-- A trained IVF index of dimension 2 holding one vector under id 5. -/
def trainedIVF2one : IVFState :=
  ⟨2, .l2, 2, 10, true, [[0, 0], [1, 1]], [⟨0, 5, [0, 0]⟩]⟩

/-- The five vectors of the persistence scenario. -/
def c2Vectors : List Vec :=
  [[1, 0, 0, 0], [0, 1, 0, 0], [0, 0, 1, 0], [0, 0, 0, 1], [1, 1, 0, 0]]

/-- The index file content after the persistence scenario's add call. -/
def c2Disk : List Int :=
  (add_vectors cfgFlat4 emptyFlat4 (encState emptyFlat4) ⟨c2Vectors, none⟩).2.2

/-! ## Claim theorems -/

/-- C1 counterexample: on an untrained Clustered index with `NLIST = 2`, an
`addVectors` call with a single valid vector does not buffer it — the
library's `add` requires a trained index, so the call fails with a 500 and
`totalVectors` stays 0 instead of increasing by 1 as the claim states. -/
theorem c1_counterexample :
    (add_vectors cfgIVF2 (.ivf untrainedIVF2) [] ⟨[[0, 0]], none⟩).1
        = .err 500 (.libraryError .notTrained) ∧
    (add_vectors cfgIVF2 (.ivf untrainedIVF2) [] ⟨[[0, 0]], none⟩).2.1
        = .ivf untrainedIVF2 ∧
    ntotalOf (add_vectors cfgIVF2 (.ivf untrainedIVF2) [] ⟨[[0, 0]], none⟩).2.1 = 0 := by
  decide

/-- C1 (amended): for an untrained Clustered index, an `addVectors` call
(auto-id) with at least `NLIST` valid vectors trains the index in that call
(trained goes false to true) and adds all of them; a call with fewer than
`NLIST` vectors fails (the underlying add requires a trained index), leaving
the index untrained, `totalVectors` unchanged and the file untouched — the
vectors are not buffered. -/
theorem c1_theorem : ∀ (cfg : Config) (s : IVFState) (disk : List Int) (req : AddReq),
    req.ids = none →
    s.trained = false →
    npShapeCols req.vectors = some cfg.dimension →
    (cfg.nlist ≤ req.vectors.length →
      trainedOf (add_vectors cfg (.ivf s) disk req).2.1 = true ∧
      ntotalOf (add_vectors cfg (.ivf s) disk req).2.1
        = s.entries.length + req.vectors.length ∧
      respIsOk (add_vectors cfg (.ivf s) disk req).1 = true) ∧
    (req.vectors.length < cfg.nlist →
      (add_vectors cfg (.ivf s) disk req).1 = .err 500 (.libraryError .notTrained) ∧
      (add_vectors cfg (.ivf s) disk req).2.1 = .ivf s ∧
      (add_vectors cfg (.ivf s) disk req).2.2 = disk) := by
  intro cfg s disk req hids htr hsh
  constructor
  · intro hn
    have hcond : isIVF (.ivf s) = true ∧ trainedOf (.ivf s) = false ∧
        cfg.nlist ≤ req.vectors.length := ⟨rfl, htr, hn⟩
    simp only [add_vectors, hsh, hids]
    split
    · rename_i hne
      exact absurd rfl hne
    · rw [faissTrain_ivf, faissAdd_ivf_trained _ _ rfl]
      refine ⟨rfl, ?_, rfl⟩
      show (s.entries ++ (List.range req.vectors.length).map _).length
        = s.entries.length + req.vectors.length
      simp
  · intro hn
    simp only [add_vectors, hsh, hids]
    split
    · rename_i hne
      exact absurd rfl hne
    · have hcond : ¬ (isIVF (.ivf s) = true ∧ trainedOf (.ivf s) = false ∧
          cfg.nlist ≤ req.vectors.length) := fun h => absurd h.2.2 (by omega)
      rw [if_neg hcond, faissAdd_ivf_untrained s req.vectors htr]
      exact ⟨rfl, rfl, rfl⟩

/-- C1 witness: the amended claim evaluated at the concrete `NLIST = 2`
scenario, adding exactly two vectors to the fresh untrained index. -/
theorem c1_witness :
    trainedOf (add_vectors cfgIVF2 (.ivf untrainedIVF2) [] ⟨[[0, 0], [3, 3]], none⟩).2.1 = true ∧
    ntotalOf (add_vectors cfgIVF2 (.ivf untrainedIVF2) [] ⟨[[0, 0], [3, 3]], none⟩).2.1
      = untrainedIVF2.entries.length + ([[0, 0], [3, 3]] : List Vec).length ∧
    respIsOk (add_vectors cfgIVF2 (.ivf untrainedIVF2) [] ⟨[[0, 0], [3, 3]], none⟩).1 = true :=
  (c1_theorem cfgIVF2 untrainedIVF2 [] ⟨[[0, 0], [3, 3]], none⟩ rfl rfl (by decide)).1
    (by decide)

/-- C2: the persistence codec round-trips every index state exactly, and in
the restart scenario — add 5 vectors to a fresh flat index, then re-run
`init_index` on the persisted file — `stats` reports `total_vectors = 5`. -/
theorem c2_theorem :
    (∀ st : IndexState, decState (encState st) = some st) ∧
    (add_vectors cfgFlat4 emptyFlat4 (encState emptyFlat4) ⟨c2Vectors, none⟩).1
      = .ok ⟨5, 5⟩ ∧
    (init_index cfgFlat4 (some c2Disk)).map
      (fun p => (get_index_stats cfgFlat4 p.1).total_vectors) = some 5 := by
  refine ⟨decState_enc, by decide, by decide⟩

/-- C3 (amended): every mutation persists by a single direct rewrite of the
index file: a rejected or failed mutation leaves the previous persisted
bytes untouched, and a successful one writes exactly the encoding of the
new state; but the write goes straight to the target file — a write
interrupted after `i` tokens leaves a bare prefix of the new encoding, so
there is no temp-file/atomic-replace protection. -/
theorem c3_theorem :
    (∀ old new : List Int, persistStep old new none = new) ∧
    (∀ (old new : List Int) (i : Nat), persistStep old new (some i) = new.take i) ∧
    (∀ (cfg : Config) (st : IndexState) (disk : List Int) (req : AddReq),
      (add_vectors cfg st disk req).2.2 = disk ∨
      (add_vectors cfg st disk req).2.2 = encState (add_vectors cfg st disk req).2.1) ∧
    (∀ (cfg : Config) (st : IndexState) (disk : List Int) (req : DeleteReq),
      (delete_vectors cfg st disk req).2.2 = disk ∨
      (delete_vectors cfg st disk req).2.2 = encState (delete_vectors cfg st disk req).2.1) ∧
    (∀ (cfg : Config) (st : IndexState) (disk : List Int),
      (reset_index cfg st disk).2.2 = encState (reset_index cfg st disk).2.1) := by
  refine ⟨fun old new => rfl, fun old new i => rfl, ?_, ?_, fun cfg st disk => rfl⟩
  · intro cfg st disk req
    simp only [add_vectors]
    split
    · exact Or.inl rfl
    · split
      · exact Or.inl rfl
      · split
        · split
          · exact Or.inl rfl
          · split
            · exact Or.inl rfl
            · exact Or.inr rfl
        · split
          · exact Or.inl rfl
          · exact Or.inr rfl
  · intro cfg st disk req
    simp only [delete_vectors]
    split
    · exact Or.inl rfl
    · exact Or.inr rfl

/-- C3 counterexample: the claim's all-or-nothing guarantee fails — for the
add mutation on a one-dimensional flat index, the persistence write
interrupted after one token leaves file content that is neither the
previously persisted state nor the new state. -/
theorem c3_counterexample :
    respIsOk (add_vectors cfgFlat1 (.flat ⟨1, .l2, []⟩) (encState (.flat ⟨1, .l2, []⟩))
        ⟨[[5]], none⟩).1 = true ∧
    persistStep (encState (.flat ⟨1, .l2, []⟩))
        (encState (add_vectors cfgFlat1 (.flat ⟨1, .l2, []⟩) (encState (.flat ⟨1, .l2, []⟩))
          ⟨[[5]], none⟩).2.1) (some 1)
      ≠ encState (.flat ⟨1, .l2, []⟩) ∧
    persistStep (encState (.flat ⟨1, .l2, []⟩))
        (encState (add_vectors cfgFlat1 (.flat ⟨1, .l2, []⟩) (encState (.flat ⟨1, .l2, []⟩))
          ⟨[[5]], none⟩).2.1) (some 1)
      ≠ encState (add_vectors cfgFlat1 (.flat ⟨1, .l2, []⟩) (encState (.flat ⟨1, .l2, []⟩))
          ⟨[[5]], none⟩).2.1 := by
  decide

/-- C4 counterexample: on a plain Flat index, adding with client-supplied
ids `[10, 20]` does not succeed — `IndexFlatL2` has no id map, so
`add_with_ids` raises and the endpoint answers 500 with the index and file
unchanged, contradicting the claimed `totalLive = 2` outcome. -/
theorem c4_counterexample :
    (add_vectors cfgFlat4 emptyFlat4 [] ⟨[[1,0,0,0],[0,1,0,0]], some [10, 20]⟩).1
      = .err 500 (.libraryError .addWithIdsUnsupported) ∧
    (add_vectors cfgFlat4 emptyFlat4 [] ⟨[[1,0,0,0],[0,1,0,0]], some [10, 20]⟩).2.1
      = emptyFlat4 ∧
    (add_vectors cfgFlat4 emptyFlat4 [] ⟨[[1,0,0,0],[0,1,0,0]], some [10, 20]⟩).2.2 = [] := by
  decide

/-- C4 (amended): on a Flat index of dimension 4, adding
`[[1,0,0,0],[0,1,0,0]]` without client ids succeeds with `totalVectors = 2`
under auto-assigned sequential ids, and searching `[[1,0,0,0]]` with `k=1`
returns exactly `[(0, 0.0)]` (slot id 0, not the rejected client id 10);
in general every stored vector queried with its own content appears in
Flat results under its own slot id at distance 0 whenever `k` covers the
store. -/
theorem c4_theorem :
    ((add_vectors cfgFlat4 emptyFlat4 [] ⟨[[1,0,0,0],[0,1,0,0]], none⟩).1 = .ok ⟨2, 2⟩ ∧
     (search_vectors cfgFlat4
        (add_vectors cfgFlat4 emptyFlat4 [] ⟨[[1,0,0,0],[0,1,0,0]], none⟩).2.1 []
        ⟨[[1,0,0,0]], 1, none⟩).1 = .ok [[((0 : Int), (0 : ℚ))]]) ∧
    (∀ (xs : List Vec) (i k : Nat), i < xs.length → xs.length ≤ k →
      ((i : Int), (0 : ℚ)) ∈ flatTopK xs (xs.getD i []) k) :=
  ⟨⟨by decide, by decide⟩, fun xs i k hi hk => flat_self_mem xs i k hi hk⟩

/-- C4 witness: the general self-retrieval property evaluated at slot 1 of
a concrete two-vector store. -/
theorem c4_witness :
    ((1 : Int), (0 : ℚ)) ∈ flatTopK [[1, 0], [3, 4]] (List.getD [[1, 0], [3, 4]] 1 []) 2 :=
  c4_theorem.2 [[1, 0], [3, 4]] 1 2 (by decide) (by decide)

/-- A successful `np.array` shape check means every row has the common
length. -/
theorem npShapeCols_mem (vss : List Vec) (cols : Nat)
    (h : npShapeCols vss = some cols) : ∀ v ∈ vss, v.length = cols := by
  cases vss with
  | nil => cases h
  | cons w ws =>
      simp only [npShapeCols] at h
      split at h
      · rename_i hall
        cases h
        intro v hv
        rcases List.mem_cons.mp hv with rfl | hv
        · rfl
        · exact of_decide_eq_true (List.all_eq_true.mp hall v hv)
      · cases h

/-- C5 (amended): an `addVectors` request containing a vector of wrong
length always fails and leaves the index and the persisted file unchanged;
the error is the dedicated `DimensionMismatch` 400 exactly when the batch
is rectangular (so the numpy shape check sees its width) — a ragged batch
instead fails the `np.array` conversion and surfaces as a generic 500. -/
theorem c5_theorem : ∀ (cfg : Config) (st : IndexState) (disk : List Int) (req : AddReq)
    (v : Vec), v ∈ req.vectors → v.length ≠ cfg.dimension →
    respIsOk (add_vectors cfg st disk req).1 = false ∧
    (add_vectors cfg st disk req).2.1 = st ∧
    (add_vectors cfg st disk req).2.2 = disk ∧
    (npShapeCols req.vectors = some v.length →
      (add_vectors cfg st disk req).1
        = .err 400 (.dimensionMismatch cfg.dimension v.length)) := by
  intro cfg st disk req v hv hne
  rcases hsh : npShapeCols req.vectors with _ | cols
  · have he : add_vectors cfg st disk req
        = (.err 500 (.libraryError .badArray), st, disk) := by
      simp only [add_vectors, hsh]
    rw [he]
    exact ⟨rfl, rfl, rfl, fun h => Option.noConfusion h⟩
  · have hcols : v.length = cols := npShapeCols_mem req.vectors cols hsh v hv
    subst hcols
    have he : add_vectors cfg st disk req
        = (.err 400 (.dimensionMismatch cfg.dimension v.length), st, disk) := by
      simp only [add_vectors, hsh]
      rw [if_pos hne]
    rw [he]
    exact ⟨rfl, rfl, rfl, fun _ => rfl⟩

/-- C5 witness: the amended claim evaluated on a rectangular batch of
width 3 against a dimension-2 flat index. -/
theorem c5_witness :
    respIsOk (add_vectors cfgFlat2 (.flat ⟨2, .l2, []⟩) [] ⟨[[1, 2, 3]], none⟩).1 = false ∧
    (add_vectors cfgFlat2 (.flat ⟨2, .l2, []⟩) [] ⟨[[1, 2, 3]], none⟩).2.1
      = .flat ⟨2, .l2, []⟩ ∧
    (add_vectors cfgFlat2 (.flat ⟨2, .l2, []⟩) [] ⟨[[1, 2, 3]], none⟩).2.2 = [] ∧
    (add_vectors cfgFlat2 (.flat ⟨2, .l2, []⟩) [] ⟨[[1, 2, 3]], none⟩).1
      = .err 400 (.dimensionMismatch 2 3) :=
  have h := c5_theorem cfgFlat2 (.flat ⟨2, .l2, []⟩) [] ⟨[[1, 2, 3]], none⟩ [1, 2, 3]
    (by decide) (by decide)
  ⟨h.1, h.2.1, h.2.2.1, h.2.2.2 (by decide)⟩

/-- C5 counterexample: a ragged batch containing the wrong-length vector
`[1]` fails with the generic 500 conversion error, not with
`DimensionMismatch`, refuting the claim's \"always fails with
DimensionMismatch\". -/
theorem c5_counterexample :
    (add_vectors cfgFlat2 (.flat ⟨2, .l2, []⟩) [] ⟨[[1, 0], [1]], none⟩).1
      = .err 500 (.libraryError .badArray) ∧
    (∃ v ∈ ([[1, 0], [1]] : List Vec), v.length ≠ 2) := by
  decide
/-- C6 (amended): a second `deleteVectors` call with the same id set leaves
`totalVectors` unchanged, but its reported `vectors_deleted` equals the
number of ids in the request (the endpoint always reports `len(ids)`), not
the 0 vectors actually removed. -/
theorem c6_theorem : ∀ (cfg : Config) (s : IVFState) (disk : List Int) (ids : List Int),
    (delete_vectors cfg (delete_vectors cfg (.ivf s) disk ⟨ids⟩).2.1
        (delete_vectors cfg (.ivf s) disk ⟨ids⟩).2.2 ⟨ids⟩).1
      = .ok ⟨ids.length, ntotalOf (delete_vectors cfg (.ivf s) disk ⟨ids⟩).2.1⟩ ∧
    ntotalOf (delete_vectors cfg (delete_vectors cfg (.ivf s) disk ⟨ids⟩).2.1
        (delete_vectors cfg (.ivf s) disk ⟨ids⟩).2.2 ⟨ids⟩).2.1
      = ntotalOf (delete_vectors cfg (.ivf s) disk ⟨ids⟩).2.1 := by
  intro cfg s disk ids
  simp only [delete_vectors, isIVF, faissRemoveIds, ntotalOf]
  simp [filter_idem]

/-- C6 counterexample: deleting id 5 twice from an IVF index holding one
vector under id 5: the first call removes it (`totalVectors` 1 to 0), and
the second call again reports `vectors_deleted = 1` — not the claimed 0 —
while `totalVectors` stays 0. -/
theorem c6_counterexample :
    (delete_vectors cfgIVF2 (.ivf trainedIVF2one) [] ⟨[5]⟩).1 = .ok ⟨1, 0⟩ ∧
    (delete_vectors cfgIVF2 (delete_vectors cfgIVF2 (.ivf trainedIVF2one) [] ⟨[5]⟩).2.1
        (delete_vectors cfgIVF2 (.ivf trainedIVF2one) [] ⟨[5]⟩).2.2 ⟨[5]⟩).1
      = .ok ⟨1, 0⟩ := by
  decide

/-- Computation rule: IVF search with positive `k` and positive effective
`nprobe` returns one top-k row per query. -/
theorem faissSearch_ivf (s : IVFState) (qs : List Vec) (k : Int)
    (hk : ¬ k ≤ 0) (hnp : ¬ (min (s.nlist : Int) s.nprobe ≤ 0)) :
    faissSearch (.ivf s) qs k
      = .ok (qs.map (fun q =>
          ivfTopK s q (min (s.nlist : Int) s.nprobe).toNat k.toNat)) := by
  simp only [faissSearch, if_neg hk]
  rw [if_neg hnp]

/-- An IVF index without centroids probes no inverted list, so every
result row is pure `-1` padding. -/
theorem ivfTopK_untrained (s : IVFState) (hc : s.centroids = [])
    (q : Vec) (np k : Nat) :
    ivfTopK s q np k = List.replicate k ((-1 : Int), padDist) := by
  simp [ivfTopK, hc, topK, sortByDist, searchCandidates]

/-- C7 (amended): searching an untrained Clustered index does not fail —
the library performs no trained check on the search path; the quantizer is
empty, no inverted list is probed, and the endpoint answers 200 with every
reported neighbor id equal to the `-1` sentinel (padding distance), for
every valid-dimension query and every `k ≥ 1`; index and file stay
untouched. -/
theorem c7_theorem : ∀ (cfg : Config) (s : IVFState) (disk : List Int) (req : SearchReq),
    s.trained = false → s.centroids = [] → req.nprobe = none →
    npShapeCols req.queryVectors = some cfg.dimension →
    1 ≤ req.k → 0 < s.nlist → 0 < s.nprobe →
    (search_vectors cfg (.ivf s) disk req).1
      = .ok (req.queryVectors.map
          (fun _ => List.replicate req.k.toNat ((-1 : Int), padDist))) ∧
    (search_vectors cfg (.ivf s) disk req).2.1 = .ivf s ∧
    (search_vectors cfg (.ivf s) disk req).2.2 = disk := by
  intro cfg s disk req htr hc hnp hsh hk hnl hnpr
  have hmin : ¬ (min (s.nlist : Int) s.nprobe ≤ 0) :=
    not_le.mpr (lt_min (by exact_mod_cast hnl) hnpr)
  simp only [search_vectors, hsh, hnp]
  split
  · rename_i hne
    exact absurd rfl hne
  · rw [faissSearch_ivf s req.queryVectors req.k (by omega) hmin]
    refine ⟨?_, rfl, rfl⟩
    simp only [ivfTopK_untrained s hc]

/-- C7 witness: the amended claim evaluated on a fresh untrained
`nlist = 2` index with one query and `k = 1`. -/
theorem c7_witness :
    (search_vectors cfgIVF2 (.ivf untrainedIVF2) [] ⟨[[0, 0]], 1, none⟩).1
      = .ok (([[0, 0]] : List Vec).map
          (fun _ => List.replicate (1 : Int).toNat ((-1 : Int), padDist))) ∧
    (search_vectors cfgIVF2 (.ivf untrainedIVF2) [] ⟨[[0, 0]], 1, none⟩).2.1
      = .ivf untrainedIVF2 ∧
    (search_vectors cfgIVF2 (.ivf untrainedIVF2) [] ⟨[[0, 0]], 1, none⟩).2.2 = [] :=
  c7_theorem cfgIVF2 untrainedIVF2 [] ⟨[[0, 0]], 1, none⟩ rfl rfl rfl (by decide)
    (by decide) (by decide) (by decide)

/-- C7 counterexample: searching the untrained Clustered index returns a
success response (all ids `-1`), not the claimed `NotTrained` failure. -/
theorem c7_counterexample :
    (search_vectors cfgIVF2 (.ivf untrainedIVF2) [] ⟨[[0, 0]], 1, none⟩).1
      = .ok [[((-1 : Int), padDist)]] ∧
    respIsOk (search_vectors cfgIVF2 (.ivf untrainedIVF2) [] ⟨[[0, 0]], 1, none⟩).1
      = true := by
  decide

/-- C8 (amended): a per-request positive `nprobe` override on a search
that completes is local to the call — the configured `nprobe` is restored
afterwards and nothing is persisted; the restoration is skipped only when
the underlying search raises. -/
theorem c8_theorem : ∀ (cfg : Config) (s : IVFState) (disk : List Int) (req : SearchReq)
    (m : Int), req.nprobe = some m → 0 < m →
    npShapeCols req.queryVectors = some cfg.dimension →
    1 ≤ req.k → 0 < s.nlist →
    (search_vectors cfg (.ivf s) disk req).2.1 = .ivf s ∧
    respIsOk (search_vectors cfg (.ivf s) disk req).1 = true ∧
    (search_vectors cfg (.ivf s) disk req).2.2 = disk := by
  intro cfg s disk req m hm hmpos hsh hk hnl
  simp only [search_vectors, hsh, hm]
  split
  · rename_i hne
    exact absurd rfl hne
  · rw [if_pos ⟨by omega, rfl⟩, if_neg (by omega : ¬ m < 0)]
    rw [show setNprobe (.ivf s) m
        = .ivf ⟨s.d, s.metric, s.nlist, m, s.trained, s.centroids, s.entries⟩ from rfl]
    rw [faissSearch_ivf ⟨s.d, s.metric, s.nlist, m, s.trained, s.centroids, s.entries⟩
      req.queryVectors req.k (by omega)
      (not_le.mpr (lt_min (by exact_mod_cast hnl) hmpos))]
    exact ⟨rfl, rfl, rfl⟩

/-- C8 witness: the amended claim evaluated with override 7 on an index
with configured `nprobe = 10` and a succeeding search. -/
theorem c8_witness :
    (search_vectors cfgIVF2 (.ivf untrainedIVF2) [] ⟨[[0, 0]], 1, some 7⟩).2.1
      = .ivf untrainedIVF2 ∧
    respIsOk (search_vectors cfgIVF2 (.ivf untrainedIVF2) [] ⟨[[0, 0]], 1, some 7⟩).1
      = true ∧
    (search_vectors cfgIVF2 (.ivf untrainedIVF2) [] ⟨[[0, 0]], 1, some 7⟩).2.2 = [] :=
  c8_theorem cfgIVF2 untrainedIVF2 [] ⟨[[0, 0]], 1, some 7⟩ 7 rfl (by decide)
    (by decide) (by decide) (by decide)

/-- C8 counterexample: with override `nprobe = 7` and `k = 0`, the search
raises (`k > 0` assertion), the restore is skipped, and the index's
configured `nprobe` is left at 7 instead of its previous 10 — refuting
\"regardless of whether the search succeeds or errors\". -/
theorem c8_counterexample :
    (search_vectors cfgIVF2 (.ivf untrainedIVF2) [] ⟨[[0, 0]], 0, some 7⟩).1
      = .err 500 (.libraryError .kNotPositive) ∧
    getNprobe (search_vectors cfgIVF2 (.ivf untrainedIVF2) [] ⟨[[0, 0]], 0, some 7⟩).2.1
      = 7 ∧
    getNprobe (.ivf untrainedIVF2) = 10 := by
  decide

/-- C9: an unrecognized configured index type makes both initialization
(no existing file) and reset fall back to a fresh Flat L2 index of the
configured dimension, succeeding rather than failing. -/
theorem c9_theorem : ∀ (cfg : Config) (st : IndexState) (disk : List Int),
    cfg.indexType ≠ "Flat" → cfg.indexType ≠ "IVF" → cfg.indexType ≠ "HNSW" →
    newIndex cfg = .flat ⟨cfg.dimension, .l2, []⟩ ∧
    init_index cfg none = some (.flat ⟨cfg.dimension, .l2, []⟩,
      encState (.flat ⟨cfg.dimension, .l2, []⟩)) ∧
    (reset_index cfg st disk).2.1 = .flat ⟨cfg.dimension, .l2, []⟩ ∧
    respIsOk (reset_index cfg st disk).1 = true := by
  intro cfg st disk h1 h2 h3
  have hnew : newIndex cfg = .flat ⟨cfg.dimension, .l2, []⟩ := by
    simp [newIndex, h1, h2, h3]
  refine ⟨hnew, ?_, ?_, rfl⟩
  · simp [init_index, hnew, persistStep]
  · simp [reset_index, h1, h2, h3]

/-- C9 witness: the fallback evaluated at the unknown index type
\"LSH\". -/
theorem c9_witness :
    newIndex ⟨3, "LSH", 100, 10⟩ = .flat ⟨3, .l2, []⟩ ∧
    init_index ⟨3, "LSH", 100, 10⟩ none
      = some (.flat ⟨3, .l2, []⟩, encState (.flat ⟨3, .l2, []⟩)) ∧
    (reset_index ⟨3, "LSH", 100, 10⟩ (.ivf untrainedIVF2) []).2.1 = .flat ⟨3, .l2, []⟩ ∧
    respIsOk (reset_index ⟨3, "LSH", 100, 10⟩ (.ivf untrainedIVF2) []).1 = true :=
  c9_theorem ⟨3, "LSH", 100, 10⟩ (.ivf untrainedIVF2) [] (by decide) (by decide) (by decide)

/-- C10: an `addVectors` call whose id count differs from its vector count
is rejected with a 400, with no vectors added and no persistence write —
but on an untrained IVF index the auto-train step of that same call has
already run before the mismatch is detected, so the trained flag may have
flipped in memory. -/
theorem c10_theorem : ∀ (cfg : Config) (st : IndexState) (disk : List Int) (req : AddReq)
    (ids : List Int),
    req.ids = some ids → ids.length ≠ req.vectors.length →
    npShapeCols req.vectors = some cfg.dimension →
    (add_vectors cfg st disk req).1
      = .err 400 (.idCountMismatch ids.length req.vectors.length) ∧
    liveVectors (add_vectors cfg st disk req).2.1 = liveVectors st ∧
    ntotalOf (add_vectors cfg st disk req).2.1 = ntotalOf st ∧
    (add_vectors cfg st disk req).2.2 = disk ∧
    trainedOf (add_vectors cfg st disk req).2.1
      = (trainedOf st || (isIVF st && decide (cfg.nlist ≤ req.vectors.length))) := by
  intro cfg st disk req ids hids hlen hsh
  simp only [add_vectors, hsh, hids]
  split
  · rename_i hne
    exact absurd rfl hne
  · by_cases hcond : isIVF st = true ∧ trainedOf st = false ∧
        cfg.nlist ≤ req.vectors.length
    · rw [if_pos hcond]
      obtain ⟨hivf, htr, hle⟩ := hcond
      cases st with
      | flat s => exact Bool.noConfusion hivf
      | hnsw s => exact Bool.noConfusion hivf
      | ivf s =>
          rw [faissTrain_ivf]
          refine ⟨rfl, rfl, rfl, rfl, ?_⟩
          simp only [trainedOf] at htr ⊢
          simp [htr, hle, isIVF]
    · rw [if_neg hcond]
      refine ⟨rfl, rfl, rfl, rfl, ?_⟩
      cases htr : trainedOf st with
      | true => simp
      | false =>
          cases hivf : isIVF st with
          | false => simp
          | true =>
              have hnle : ¬ (cfg.nlist ≤ req.vectors.length) :=
                fun hle => hcond ⟨hivf, htr, hle⟩
              simp [hnle]

/-- C10 witness: the id-count mismatch evaluated on the untrained
`nlist = 2` index with 2 vectors and 3 ids: the request errors, nothing is
added or persisted, yet the index comes out trained. -/
theorem c10_witness :
    (add_vectors cfgIVF2 (.ivf untrainedIVF2) [] ⟨[[0, 0], [3, 3]], some [1, 2, 3]⟩).1
      = .err 400 (.idCountMismatch 3 2) ∧
    liveVectors (add_vectors cfgIVF2 (.ivf untrainedIVF2) []
        ⟨[[0, 0], [3, 3]], some [1, 2, 3]⟩).2.1 = liveVectors (.ivf untrainedIVF2) ∧
    ntotalOf (add_vectors cfgIVF2 (.ivf untrainedIVF2) []
        ⟨[[0, 0], [3, 3]], some [1, 2, 3]⟩).2.1 = ntotalOf (.ivf untrainedIVF2) ∧
    (add_vectors cfgIVF2 (.ivf untrainedIVF2) []
        ⟨[[0, 0], [3, 3]], some [1, 2, 3]⟩).2.2 = [] ∧
    trainedOf (add_vectors cfgIVF2 (.ivf untrainedIVF2) []
        ⟨[[0, 0], [3, 3]], some [1, 2, 3]⟩).2.1
      = (trainedOf (.ivf untrainedIVF2)
          || (isIVF (.ivf untrainedIVF2) && decide ((2 : Nat) ≤ 2))) :=
  c10_theorem cfgIVF2 (.ivf untrainedIVF2) [] ⟨[[0, 0], [3, 3]], some [1, 2, 3]⟩
    [1, 2, 3] rfl (by decide) (by decide)
end FaissApi
